import Mathlib

/-!
# vasprintf (libvasprintf.h)

A shallow embedding of the fallback `vasprintf` of `Sources/libvasprintf/libvasprintf.h`.

The function is a straight-line sequence of calls into the C library (`va_copy`,
`vsnprintf`, `va_end`, `malloc`, `vsnprintf`, `free`).  The C library is not part of the
repository, so it is a parameter of the embedding (`Libc`): an arbitrary state transformer
over a hidden library state.  The heap (set of live allocations), the bytes stored in the
blocks, the out-parameter cell `*strp`, the number of open `va_list` copies and the list of
library calls made so far are explicit components of the state (`World`).

Integer model: `int` is 32 bits two's complement (`wrapInt`), `size_t` is 64 bits
(`toSizeT`); pointers are natural numbers and `NULL` is `0`.

Properties that hold whatever the library does are proved for an arbitrary `Libc`.
Properties of the formatted output need what the C standard says of `vsnprintf` and
`malloc`; these contracts are the predicates `Conforming` and `FreshAlloc`.  Concrete
templates are run on a reference library (`stdLibc`, `render`) that follows ISO C for the
conversions `%%`, `%d`, `%i`, `%c` and `%s`.
-/

namespace Vasprintf

/-! ## Machine constants and integer arithmetic -/

/-- The null pointer. -/
def NULL : Nat := 0

/-- The byte that terminates a C string. -/
def NUL : Char := Char.ofNat 0

/-- The character `%`, which introduces a conversion specification. -/
def PERCENT : Char := Char.ofNat 37

/-- Largest value of a 32-bit `int`. -/
def INT_MAX : Int := 2147483647

/-- Smallest value of a 32-bit `int`. -/
def INT_MIN : Int := -2147483648

/-- Reduction of a mathematical integer to a 32-bit two's complement `int`. -/
def wrapInt (x : Int) : Int := (x + 2 ^ 31) % 2 ^ 32 - 2 ^ 31

/-- The `int` addition `a + b`, wrapping modulo `2 ^ 32`. -/
def addInt (a b : Int) : Int := wrapInt (a + b)

/-- Conversion of an `int` to the 64-bit unsigned `size_t` (the implicit conversion at the
`size_t` parameters of `malloc` and `vsnprintf`). -/
def toSizeT (x : Int) : Nat := (x % 2 ^ 64).toNat

/-- Number of bytes before the first terminator (`strlen`). -/
def strlen (bytes : List Char) : Nat := (bytes.takeWhile (fun c => c != NUL)).length

/-! ## Arguments and the C library -/

/-- One value of a variable argument list: an `int` or a pointer to a C string (given by
the characters before its terminator). -/
inductive Arg where
  | int (i : Int)
  | str (s : List Char)
  deriving DecidableEq

/-- A `va_list`: the arguments not yet consumed. -/
abbrev VaList := List Arg

/-- What one `vsnprintf` call did: the new hidden library state, the value returned, and
the bytes it stored at the start of the buffer. -/
structure FormatResult (σ : Type) where
  lib : σ
  result : Int
  written : List Char

/-- The C library used by `vasprintf`, over a hidden library state `σ`.
`format s buf cap fmt ap` is `vsnprintf(buf, cap, fmt, ap)`;
`alloc s live n` is `malloc(n)` when `live` is the set of live blocks, returning the new
hidden state and the pointer (`NULL` on failure); `release s p` is `free(p)`. -/
structure Libc (σ : Type) where
  format : σ → Nat → Nat → List Char → VaList → FormatResult σ
  alloc : σ → Finset Nat → Nat → σ × Nat
  release : σ → Nat → σ

/-- A call into the C library, with its arguments and the value it returned. -/
inductive Call where
  | vsnprintf (buf cap : Nat) (result : Int)
  | malloc (size ptr : Nat)
  | free (ptr : Nat)
  | va_copy
  | va_end
  deriving DecidableEq

/-- The state a call of `vasprintf` runs in. -/
structure World (σ : Type) where
  /-- Hidden state of the C library. -/
  lib : σ
  /-- Addresses of the live heap blocks. -/
  live : Finset Nat
  /-- Bytes stored at the start of the block at each address. -/
  mem : Nat → List Char
  /-- The cell `*strp` of the caller. -/
  strp : Nat
  /-- Number of `va_list` copies made by `va_copy` and not yet ended by `va_end`. -/
  cursors : Nat
  /-- The library calls made so far, oldest first. -/
  trace : List Call

variable {σ : Type}

/-- The macro `va_copy(dst, src)`: `dst` becomes a copy of the cursor `src`. -/
def va_copy (w : World σ) (src : VaList) : VaList × World σ :=
  (src, { w with cursors := w.cursors + 1, trace := w.trace ++ [Call.va_copy] })

/-- The macro `va_end(ap)`. -/
def va_end (w : World σ) : World σ :=
  { w with cursors := w.cursors - 1, trace := w.trace ++ [Call.va_end] }

/-- The call `vsnprintf(buf, cap, fmt, ap)` in world `w`: the value returned and the world
after it.  With a null `buf` nothing is stored. -/
def vsnprintf (L : Libc σ) (w : World σ) (buf cap : Nat) (fmt : List Char) (ap : VaList) :
    Int × World σ :=
  let r := L.format w.lib buf cap fmt ap
  (r.result,
    { w with
      lib := r.lib
      mem := if buf = NULL then w.mem else Function.update w.mem buf r.written
      trace := w.trace ++ [Call.vsnprintf buf cap r.result] })

/-- The call `malloc(size)` in world `w`: a non-null result joins the live blocks. -/
def malloc (L : Libc σ) (w : World σ) (size : Nat) : Nat × World σ :=
  let r := L.alloc w.lib w.live size
  (r.2,
    { w with
      lib := r.1
      live := if r.2 = NULL then w.live else insert r.2 w.live
      trace := w.trace ++ [Call.malloc size r.2] })

/-- The call `free(ptr)` in world `w`: the block leaves the live blocks. -/
def free (L : Libc σ) (w : World σ) (ptr : Nat) : World σ :=
  { w with
    lib := L.release w.lib ptr
    live := w.live.erase ptr
    trace := w.trace ++ [Call.free ptr] }

/-! ## The function -/

/-- The function `vasprintf(strp, fmt, args)` of `libvasprintf.h`: the value returned and
the world after the call.  `fmt` is the template (its characters before the terminator),
`args` the argument list, and `*strp` is the field `strp` of the world. -/
def vasprintf (L : Libc σ) (w : World σ) (fmt : List Char) (args : VaList) : Int × World σ :=
  let w := { w with strp := NULL }
  let (vsnprintf_args, w) := va_copy w args
  let (length, w) := vsnprintf L w NULL 0 fmt vsnprintf_args
  let w := va_end w
  if length < 0 then
    (-1, w)
  else
    let (buffer, w) := malloc L w (toSizeT (addInt length 1))
    if buffer = NULL then
      (-1, w)
    else
      let (result, w) := vsnprintf L w buffer (toSizeT (addInt length 1)) fmt args
      if result < 0 then
        let w := free L w buffer
        (-1, w)
      else
        let w := { w with strp := buffer }
        (result, w)

/-! ## The three library calls of one `vasprintf` call, seen from the caller -/

/-- The trial pass: the zero-capacity `vsnprintf(NULL, 0, fmt, copy)` of a call started in
world `w`. -/
def trialPass (L : Libc σ) (w : World σ) (fmt : List Char) (args : VaList) : FormatResult σ :=
  L.format w.lib NULL 0 fmt args

/-- The size `length + 1` computed from the trial length, as `malloc` and the real pass
receive it. -/
def requestSize (L : Libc σ) (w : World σ) (fmt : List Char) (args : VaList) : Nat :=
  toSizeT (addInt (trialPass L w fmt args).result 1)

/-- The allocation that follows a trial pass: hidden state and pointer returned. -/
def allocation (L : Libc σ) (w : World σ) (fmt : List Char) (args : VaList) : σ × Nat :=
  L.alloc (trialPass L w fmt args).lib w.live (requestSize L w fmt args)

/-- The real pass: `vsnprintf(buffer, length + 1, fmt, args)` into the allocated buffer. -/
def realPass (L : Libc σ) (w : World σ) (fmt : List Char) (args : VaList) : FormatResult σ :=
  L.format (allocation L w fmt args).1 (allocation L w fmt args).2 (requestSize L w fmt args)
    fmt args

/-- The library calls a `vasprintf` call added to the trace. -/
def newCalls (L : Libc σ) (w : World σ) (fmt : List Char) (args : VaList) : List Call :=
  (vasprintf L w fmt args).2.trace.drop w.trace.length

/-! ## The four paths through `vasprintf` -/

/-- The world after the trial pass and `va_end`. -/
def afterTrial (L : Libc σ) (w : World σ) (fmt : List Char) (args : VaList) : World σ :=
  { lib := (trialPass L w fmt args).lib
    live := w.live
    mem := w.mem
    strp := NULL
    cursors := w.cursors + 1 - 1
    trace := w.trace ++ [Call.va_copy, Call.vsnprintf NULL 0 (trialPass L w fmt args).result,
      Call.va_end] }

/-- The world after a successful allocation and the real pass. -/
def afterReal (L : Libc σ) (w : World σ) (fmt : List Char) (args : VaList) : World σ :=
  { lib := (realPass L w fmt args).lib
    live := insert (allocation L w fmt args).2 w.live
    mem := Function.update w.mem (allocation L w fmt args).2 (realPass L w fmt args).written
    strp := NULL
    cursors := w.cursors + 1 - 1
    trace := w.trace ++ [Call.va_copy, Call.vsnprintf NULL 0 (trialPass L w fmt args).result,
      Call.va_end, Call.malloc (requestSize L w fmt args) (allocation L w fmt args).2,
      Call.vsnprintf (allocation L w fmt args).2 (requestSize L w fmt args)
        (realPass L w fmt args).result] }

/-! ## Contracts of the C library -/

/-- What `vsnprintf` stores in a buffer of capacity `cap` when the formatted text is `text`:
nothing when `cap` is zero, else at most `cap - 1` characters of the text and one
terminator. -/
def bounded (cap : Nat) (text : List Char) : List Char :=
  if cap = 0 then [] else text.take (cap - 1) ++ [NUL]

/-- The contract of `vsnprintf` with respect to a rendering function `rnd` (template and
arguments to formatted text, `none` when the template and arguments are rejected): every call
that reports a non-negative value reports the length of the whole formatted text, which fits
an `int`, and stores the text bounded by the capacity.  Calls may fail for any reason. -/
def Conforming (rnd : List Char → VaList → Option (List Char)) (L : Libc σ) : Prop :=
  ∀ s buf cap fmt ap, 0 ≤ (L.format s buf cap fmt ap).result →
    ∃ text, rnd fmt ap = some text ∧
      (L.format s buf cap fmt ap).result = (text.length : Int) ∧
      (text.length : Int) ≤ INT_MAX ∧
      (L.format s buf cap fmt ap).written = bounded cap text

/-- The contract of `malloc`: a non-null result is not the address of a live block. -/
def FreshAlloc (L : Libc σ) : Prop :=
  ∀ s live n, (L.alloc s live n).2 = NULL ∨ (L.alloc s live n).2 ∉ live

/-- The pointers passed to `free` in a list of calls, in order. -/
def frees : List Call → List Nat
  | [] => []
  | Call.free p :: cs => p :: frees cs
  | _ :: cs => frees cs

/-! ## A reference C library

The formatting engine of ISO C for the conversions `%%`, `%d`, `%i`, `%c` and `%s` without
flags, width or precision; any other conversion specification, a missing argument and an
argument of the wrong kind are rejected. -/

/-- Decimal digits of an `int`, with a minus sign when negative. -/
def decimal (i : Int) : List Char :=
  if i < 0 then Char.ofNat 45 :: Nat.toDigits 10 i.natAbs else Nat.toDigits 10 i.toNat

/-- The formatted text of a template and its arguments, `none` when rejected.  Arguments
left over are ignored. -/
def render : List Char → VaList → Option (List Char)
  | [], _ => some []
  | [c], _ => if c = PERCENT then none else some [c]
  | c :: d :: rest, ap =>
    if c = PERCENT then
      if d = PERCENT then
        (render rest ap).map (fun t => PERCENT :: t)
      else if d = Char.ofNat 100 ∨ d = Char.ofNat 105 then
        match ap with
        | Arg.int i :: ap => (render rest ap).map (fun t => decimal (wrapInt i) ++ t)
        | _ => none
      else if d = Char.ofNat 99 then
        match ap with
        | Arg.int i :: ap => (render rest ap).map (fun t => Char.ofNat (i % 256).toNat :: t)
        | _ => none
      else if d = Char.ofNat 115 then
        match ap with
        | Arg.str str :: ap => (render rest ap).map (fun t => str ++ t)
        | _ => none
      else
        none
    else
      (render (d :: rest) ap).map (fun t => c :: t)

/-- The reference `vsnprintf`: fails when the template and arguments are rejected or the
text is longer than `INT_MAX`, and leaves the hidden state alone. -/
def stdFormat (s : σ) (_buf cap : Nat) (fmt : List Char) (ap : VaList) : FormatResult σ :=
  match render fmt ap with
  | none => ⟨s, -1, []⟩
  | some text =>
    if INT_MAX < (text.length : Int) then ⟨s, -1, []⟩
    else ⟨s, (text.length : Int), bounded cap text⟩

/-- The C library with the reference `vsnprintf` and a given allocator. -/
def stdLibc (alloc : σ → Finset Nat → Nat → σ × Nat) (release : σ → Nat → σ) : Libc σ :=
  { format := stdFormat, alloc := alloc, release := release }

/-- An arena allocator over a budget of bytes: `malloc(n)` fails when fewer than `n` bytes
remain and otherwise returns the address after the largest live one. -/
def arenaAlloc (s : Nat) (live : Finset Nat) (n : Nat) : Nat × Nat :=
  if n ≤ s then (s - n, live.sup id + 1) else (s, NULL)

/-- The arena allocator does not recycle: `free` leaves the budget alone. -/
def arenaRelease (s : Nat) (_p : Nat) : Nat := s

/-- The reference C library over the arena allocator. -/
def arenaLibc : Libc Nat := stdLibc arenaAlloc arenaRelease

/-- A C library whose `vsnprintf` measures like the reference one but fails on every call
that is given a buffer. -/
def faultyLibc : Libc Nat :=
  { format := fun s buf cap fmt ap =>
      if buf = NULL then stdFormat s buf cap fmt ap else ⟨s, -1, []⟩
    alloc := arenaAlloc
    release := arenaRelease }

/-- A world with an empty heap, `*strp` holding garbage, and `budget` bytes to allocate. -/
def emptyWorld (budget : Nat) : World Nat :=
  { lib := budget, live := ∅, mem := fun _ => [], strp := 77, cursors := 0, trace := [] }

/-- A template is free of argument-consuming conversions when every `%` in it belongs to a
`%%` pair. -/
def argFree : List Char → Bool
  | [] => true
  | [c] => c != PERCENT
  | c :: d :: rest => if c = PERCENT then d == PERCENT && argFree rest else argFree (d :: rest)

/-- The text of an argument-free template: every `%%` pair read as one `%`. -/
def unescape : List Char → List Char
  | [] => []
  | [c] => [c]
  | c :: d :: rest =>
    if c = PERCENT then PERCENT :: unescape rest else c :: unescape (d :: rest)

/-- The template `%d-%s`. -/
def exampleTemplate : List Char := "%d-%s".toList

/-- The arguments `(7, "ok")`. -/
def exampleArgs : VaList := [Arg.int 7, Arg.str "ok".toList]

/-- The template `%%`. -/
def percentTemplate : List Char := [PERCENT, PERCENT]

/-- The template `%s:%d`. -/
def pairTemplate : List Char := "%s:%d".toList

/-- The arguments `("id", -12)`. -/
def pairArgs : VaList := [Arg.str "id".toList, Arg.int (-12)]

/-- The template `%d%%`. -/
def ratioTemplate : List Char := "%d%%".toList

/-- The template `a%%b`. -/
def escapedTemplate : List Char := "a%%b".toList

/-- The template `%d`. -/
def decimalTemplate : List Char := "%d".toList

/-- A template of `2^31` letters `a`, one more than `INT_MAX`. -/
def overlongTemplate : List Char := List.replicate 2147483648 (Char.ofNat 97)

/-! # Theorems -/

theorem vasprintf_trial_neg (L : Libc σ) (w : World σ) (fmt : List Char) (args : VaList)
    (h : (trialPass L w fmt args).result < 0) :
    vasprintf L w fmt args = (-1, afterTrial L w fmt args) := by
  simp [vasprintf, vsnprintf, va_copy, va_end, afterTrial, trialPass, NULL] at h ⊢
  simp [h]

theorem vasprintf_alloc_null (L : Libc σ) (w : World σ) (fmt : List Char) (args : VaList)
    (h : 0 ≤ (trialPass L w fmt args).result) (ha : (allocation L w fmt args).2 = NULL) :
    vasprintf L w fmt args =
      (-1, { afterTrial L w fmt args with
              lib := (allocation L w fmt args).1
              trace := (afterTrial L w fmt args).trace ++
                [Call.malloc (requestSize L w fmt args) NULL] }) := by
  simp [vasprintf, vsnprintf, va_copy, va_end, malloc, afterTrial, trialPass, allocation,
    requestSize, NULL] at h ha ⊢
  simp [not_lt.mpr h, ha]

theorem vasprintf_real_neg (L : Libc σ) (w : World σ) (fmt : List Char) (args : VaList)
    (h : 0 ≤ (trialPass L w fmt args).result) (ha : (allocation L w fmt args).2 ≠ NULL)
    (hr : (realPass L w fmt args).result < 0) :
    vasprintf L w fmt args =
      (-1, { afterReal L w fmt args with
              lib := L.release (realPass L w fmt args).lib (allocation L w fmt args).2
              live := (insert (allocation L w fmt args).2 w.live).erase
                (allocation L w fmt args).2
              trace := (afterReal L w fmt args).trace ++
                [Call.free (allocation L w fmt args).2] }) := by
  simp [vasprintf, vsnprintf, va_copy, va_end, malloc, free, afterReal, trialPass, allocation,
    realPass, requestSize, NULL] at h ha hr ⊢
  simp [not_lt.mpr h, ha, hr]

theorem vasprintf_ok (L : Libc σ) (w : World σ) (fmt : List Char) (args : VaList)
    (h : 0 ≤ (trialPass L w fmt args).result) (ha : (allocation L w fmt args).2 ≠ NULL)
    (hr : 0 ≤ (realPass L w fmt args).result) :
    vasprintf L w fmt args =
      ((realPass L w fmt args).result,
        { afterReal L w fmt args with strp := (allocation L w fmt args).2 }) := by
  simp [vasprintf, vsnprintf, va_copy, va_end, malloc, afterReal, trialPass, allocation,
    realPass, requestSize, NULL] at h ha hr ⊢
  simp [not_lt.mpr h, ha, not_lt.mpr hr]

/-! ## Integer arithmetic of `length + 1` -/

theorem addInt_one_of_lt (n : Int) (h0 : 0 ≤ n) (h : n < INT_MAX) : addInt n 1 = n + 1 := by
  unfold addInt wrapInt
  unfold INT_MAX at h
  omega

theorem addInt_one_max : addInt INT_MAX 1 = INT_MIN := by
  decide

theorem toSizeT_addInt_of_lt (n : Int) (h0 : 0 ≤ n) (h : n < INT_MAX) :
    toSizeT (addInt n 1) = n.toNat + 1 := by
  rw [addInt_one_of_lt n h0 h]
  unfold toSizeT
  unfold INT_MAX at h
  omega

theorem toSizeT_addInt_ge (n : Int) (h0 : 0 ≤ n) (h : n ≤ INT_MAX) :
    n.toNat + 1 ≤ toSizeT (addInt n 1) := by
  unfold toSizeT addInt wrapInt
  unfold INT_MAX at h
  omega

/-! ## The calls made on each path -/

theorem newCalls_trial_neg (L : Libc σ) (w : World σ) (fmt : List Char) (args : VaList)
    (h : (trialPass L w fmt args).result < 0) :
    newCalls L w fmt args =
      [Call.va_copy, Call.vsnprintf NULL 0 (trialPass L w fmt args).result, Call.va_end] := by
  simp [newCalls, vasprintf_trial_neg L w fmt args h, afterTrial]

theorem newCalls_alloc_null (L : Libc σ) (w : World σ) (fmt : List Char) (args : VaList)
    (h : 0 ≤ (trialPass L w fmt args).result) (ha : (allocation L w fmt args).2 = NULL) :
    newCalls L w fmt args =
      [Call.va_copy, Call.vsnprintf NULL 0 (trialPass L w fmt args).result, Call.va_end,
        Call.malloc (requestSize L w fmt args) NULL] := by
  simp [newCalls, vasprintf_alloc_null L w fmt args h ha, afterTrial]

theorem newCalls_real_neg (L : Libc σ) (w : World σ) (fmt : List Char) (args : VaList)
    (h : 0 ≤ (trialPass L w fmt args).result) (ha : (allocation L w fmt args).2 ≠ NULL)
    (hr : (realPass L w fmt args).result < 0) :
    newCalls L w fmt args =
      [Call.va_copy, Call.vsnprintf NULL 0 (trialPass L w fmt args).result, Call.va_end,
        Call.malloc (requestSize L w fmt args) (allocation L w fmt args).2,
        Call.vsnprintf (allocation L w fmt args).2 (requestSize L w fmt args)
          (realPass L w fmt args).result,
        Call.free (allocation L w fmt args).2] := by
  simp [newCalls, vasprintf_real_neg L w fmt args h ha hr, afterReal]

theorem newCalls_ok (L : Libc σ) (w : World σ) (fmt : List Char) (args : VaList)
    (h : 0 ≤ (trialPass L w fmt args).result) (ha : (allocation L w fmt args).2 ≠ NULL)
    (hr : 0 ≤ (realPass L w fmt args).result) :
    newCalls L w fmt args =
      [Call.va_copy, Call.vsnprintf NULL 0 (trialPass L w fmt args).result, Call.va_end,
        Call.malloc (requestSize L w fmt args) (allocation L w fmt args).2,
        Call.vsnprintf (allocation L w fmt args).2 (requestSize L w fmt args)
          (realPass L w fmt args).result] := by
  simp [newCalls, vasprintf_ok L w fmt args h ha hr, afterReal]

/-- The trace after a call is the trace before it followed by the calls it made. -/
theorem trace_eq (L : Libc σ) (w : World σ) (fmt : List Char) (args : VaList) :
    (vasprintf L w fmt args).2.trace = w.trace ++ newCalls L w fmt args := by
  rcases lt_or_le (trialPass L w fmt args).result 0 with h | h
  · simp [newCalls, vasprintf_trial_neg L w fmt args h, afterTrial]
  · by_cases ha : (allocation L w fmt args).2 = NULL
    · simp [newCalls, vasprintf_alloc_null L w fmt args h ha, afterTrial]
    · rcases lt_or_le (realPass L w fmt args).result 0 with hr | hr
      · simp [newCalls, vasprintf_real_neg L w fmt args h ha hr, afterReal]
      · simp [newCalls, vasprintf_ok L w fmt args h ha hr, afterReal]

/-- Every `malloc` call of the function asks for `requestSize` bytes after a non-negative
trial pass and returns the pointer of `allocation`. -/
theorem malloc_mem_newCalls (L : Libc σ) (w : World σ) (fmt : List Char) (args : VaList)
    (size p : Nat) (hm : Call.malloc size p ∈ newCalls L w fmt args) :
    size = requestSize L w fmt args ∧ p = (allocation L w fmt args).2 ∧
      0 ≤ (trialPass L w fmt args).result := by
  rcases lt_or_le (trialPass L w fmt args).result 0 with h | h
  · rw [newCalls_trial_neg L w fmt args h] at hm
    simp at hm
  · by_cases ha : (allocation L w fmt args).2 = NULL
    · rw [newCalls_alloc_null L w fmt args h ha] at hm
      simp at hm
      exact ⟨hm.1, hm.2.trans ha.symm, h⟩
    · rcases lt_or_le (realPass L w fmt args).result 0 with hr | hr
      · rw [newCalls_real_neg L w fmt args h ha hr] at hm
        simp at hm
        exact ⟨hm.1, hm.2, h⟩
      · rw [newCalls_ok L w fmt args h ha hr] at hm
        simp at hm
        exact ⟨hm.1, hm.2, h⟩

/-- Every `vsnprintf` call of the function is the trial pass, with a null buffer and zero
capacity, or the real pass, into the non-null allocated buffer with capacity `requestSize`. -/
theorem vsnprintf_mem_newCalls (L : Libc σ) (w : World σ) (fmt : List Char) (args : VaList)
    (buf cap : Nat) (r : Int) (hm : Call.vsnprintf buf cap r ∈ newCalls L w fmt args) :
    (buf = NULL ∧ cap = 0 ∧ r = (trialPass L w fmt args).result) ∨
    (buf ≠ NULL ∧ buf = (allocation L w fmt args).2 ∧ cap = requestSize L w fmt args ∧
      r = (realPass L w fmt args).result ∧ 0 ≤ (trialPass L w fmt args).result) := by
  rcases lt_or_le (trialPass L w fmt args).result 0 with h | h
  · rw [newCalls_trial_neg L w fmt args h] at hm
    simp at hm
    exact Or.inl hm
  · by_cases ha : (allocation L w fmt args).2 = NULL
    · rw [newCalls_alloc_null L w fmt args h ha] at hm
      simp at hm
      exact Or.inl hm
    · rcases lt_or_le (realPass L w fmt args).result 0 with hr | hr
      · rw [newCalls_real_neg L w fmt args h ha hr] at hm
        simp at hm
        rcases hm with hm | ⟨e1, e2, e3⟩
        · exact Or.inl hm
        · exact Or.inr ⟨e1 ▸ ha, e1, e2, e3, h⟩
      · rw [newCalls_ok L w fmt args h ha hr] at hm
        simp at hm
        rcases hm with hm | ⟨e1, e2, e3⟩
        · exact Or.inl hm
        · exact Or.inr ⟨e1 ▸ ha, e1, e2, e3, h⟩

/-- After a non-negative trial pass `malloc` is called. -/
theorem malloc_called (L : Libc σ) (w : World σ) (fmt : List Char) (args : VaList)
    (h : 0 ≤ (trialPass L w fmt args).result) :
    Call.malloc (requestSize L w fmt args) (allocation L w fmt args).2 ∈
      newCalls L w fmt args := by
  by_cases ha : (allocation L w fmt args).2 = NULL
  · rw [newCalls_alloc_null L w fmt args h ha]
    simp [ha]
  · rcases lt_or_le (realPass L w fmt args).result 0 with hr | hr
    · rw [newCalls_real_neg L w fmt args h ha hr]
      simp
    · rw [newCalls_ok L w fmt args h ha hr]
      simp

/-- After a successful allocation the real pass is made. -/
theorem real_called (L : Libc σ) (w : World σ) (fmt : List Char) (args : VaList)
    (h : 0 ≤ (trialPass L w fmt args).result) (ha : (allocation L w fmt args).2 ≠ NULL) :
    Call.vsnprintf (allocation L w fmt args).2 (requestSize L w fmt args)
      (realPass L w fmt args).result ∈ newCalls L w fmt args := by
  rcases lt_or_le (realPass L w fmt args).result 0 with hr | hr
  · rw [newCalls_real_neg L w fmt args h ha hr]
    simp
  · rw [newCalls_ok L w fmt args h ha hr]
    simp

/-! ## Consequences of the `vsnprintf` contract -/

theorem bounded_of_lt (cap : Nat) (text : List Char) (h : text.length < cap) :
    bounded cap text = text ++ [NUL] := by
  unfold bounded
  have h0 : cap ≠ 0 := by omega
  rw [if_neg h0, List.take_of_length_le (by omega)]

theorem strlen_terminated (text : List Char) (h : NUL ∉ text) :
    strlen (text ++ [NUL]) = text.length := by
  induction text with
  | nil => simp [strlen, List.takeWhile]
  | cons c t ih =>
    have hc : c ≠ NUL := fun e => h (by simp [e])
    have ht : NUL ∉ t := fun e => h (by simp [e])
    have := ih ht
    unfold strlen at this ⊢
    have hb : (c != NUL) = true := by simpa using hc
    rw [List.cons_append, List.takeWhile_cons, hb]
    simpa using this

/-- Under the contract, when both passes succeed they report the length of one text, and the
real pass stores that text and one terminator. -/
theorem conforming_passes {rnd : List Char → VaList → Option (List Char)} {L : Libc σ}
    (hL : Conforming rnd L) (w : World σ) (fmt : List Char) (args : VaList)
    (htrial : 0 ≤ (trialPass L w fmt args).result)
    (hreal : 0 ≤ (realPass L w fmt args).result) :
    ∃ text, rnd fmt args = some text ∧
      (trialPass L w fmt args).result = (text.length : Int) ∧
      (realPass L w fmt args).result = (text.length : Int) ∧
      (text.length : Int) ≤ INT_MAX ∧
      (realPass L w fmt args).written = text ++ [NUL] := by
  obtain ⟨text, h1, h2, h3, _⟩ := hL _ _ _ _ _ htrial
  obtain ⟨text', h1', h2', _, h4'⟩ := hL _ _ _ _ _ hreal
  have ht : text' = text := by
    rw [h1] at h1'
    exact (Option.some.inj h1').symm
  subst ht
  have h2t : (trialPass L w fmt args).result = (text'.length : Int) := h2
  refine ⟨text', h1, h2t, h2', h3, ?_⟩
  rw [show (realPass L w fmt args).written = bounded (requestSize L w fmt args) text' from h4']
  apply bounded_of_lt
  have hge := toSizeT_addInt_ge (trialPass L w fmt args).result htrial (by rw [h2t]; exact h3)
  unfold requestSize
  rw [h2t] at hge ⊢
  simp at hge
  omega

/-! ## The reference C library -/

theorem stdFormat_of_render (s : σ) (buf cap : Nat) (fmt : List Char) (ap : VaList)
    (text : List Char) (hr : render fmt ap = some text) (hlen : (text.length : Int) ≤ INT_MAX) :
    stdFormat s buf cap fmt ap = ⟨s, (text.length : Int), bounded cap text⟩ := by
  unfold stdFormat
  rw [hr]
  simp [not_lt.mpr hlen]

theorem trialPass_of_overlong (alloc : σ → Finset Nat → Nat → σ × Nat)
    (release : σ → Nat → σ) (w : World σ) (fmt : List Char) (ap : VaList) (text : List Char)
    (hr : render fmt ap = some text) (hbig : INT_MAX < (text.length : Int)) :
    (trialPass (stdLibc alloc release) w fmt ap).result = -1 := by
  show (stdFormat w.lib NULL 0 fmt ap).result = -1
  unfold stdFormat
  rw [hr]
  simp only [hbig, if_true]

theorem stdLibc_conforming (alloc : σ → Finset Nat → Nat → σ × Nat) (release : σ → Nat → σ) :
    Conforming render (stdLibc alloc release) := by
  intro s buf cap fmt ap h
  simp only [stdLibc, stdFormat] at h ⊢
  cases hr : render fmt ap with
  | none => simp [hr] at h
  | some text =>
    by_cases hlen : INT_MAX < (text.length : Int)
    · simp [hr, hlen] at h
    · exact ⟨text, rfl, by simp [hlen], not_lt.mp hlen, by simp [hlen]⟩

theorem faultyLibc_conforming : Conforming render faultyLibc := by
  intro s buf cap fmt ap h
  by_cases hb : buf = NULL
  · have := stdLibc_conforming arenaAlloc arenaRelease s buf cap fmt ap
    simp only [stdLibc, faultyLibc, hb, if_true] at this h ⊢
    exact this h
  · simp [faultyLibc, hb] at h

theorem arenaAlloc_fresh (s : Nat) (live : Finset Nat) (n : Nat) :
    (arenaAlloc s live n).2 = NULL ∨ (arenaAlloc s live n).2 ∉ live := by
  unfold arenaAlloc
  by_cases h : n ≤ s
  · right
    simp only [h, if_true]
    intro hmem
    have hle : live.sup id + 1 ≤ live.sup id := @Finset.le_sup ℕ ℕ _ _ live id _ hmem
    omega
  · left
    simp [h]

theorem arenaLibc_fresh : FreshAlloc arenaLibc :=
  fun s live n => arenaAlloc_fresh s live n

theorem faultyLibc_fresh : FreshAlloc faultyLibc :=
  fun s live n => arenaAlloc_fresh s live n

theorem render_argFree (fmt : List Char) (ap : VaList) (h : argFree fmt = true) :
    render fmt ap = some (unescape fmt) := by
  induction fmt using argFree.induct with
  | case1 => simp [render, unescape]
  | case2 c =>
    have hc : c ≠ PERCENT := by simpa [argFree] using h
    simp [render, unescape, hc]
  | case3 d rest ih =>
    simp [argFree] at h
    simp [render, unescape, h.1, ih h.2]
  | case4 c d rest hc ih =>
    simp [argFree, hc] at h
    simp [render, unescape, hc, ih h]

theorem argFree_of_no_percent (fmt : List Char) (h : PERCENT ∉ fmt) :
    argFree fmt = true ∧ unescape fmt = fmt := by
  induction fmt using argFree.induct with
  | case1 => simp [argFree, unescape]
  | case2 c =>
    have hc : c ≠ PERCENT := fun e => h (by simp [e])
    simp [argFree, unescape, hc]
  | case3 d rest _ => simp at h
  | case4 c d rest hc ih =>
    have hr : PERCENT ∉ d :: rest := fun e => h (List.mem_cons_of_mem _ e)
    simp [argFree, unescape, hc, ih hr]

/-- A call of `vasprintf` over the reference `vsnprintf` whose template and arguments render
to `text`, with a succeeding allocation. -/
theorem std_vasprintf (alloc : σ → Finset Nat → Nat → σ × Nat) (release : σ → Nat → σ)
    (w : World σ) (fmt : List Char) (args : VaList) (text : List Char)
    (hr : render fmt args = some text) (hlen : (text.length : Int) ≤ INT_MAX)
    (halloc : (allocation (stdLibc alloc release) w fmt args).2 ≠ NULL) :
    (trialPass (stdLibc alloc release) w fmt args).result = (text.length : Int) ∧
    (realPass (stdLibc alloc release) w fmt args).result = (text.length : Int) ∧
    (vasprintf (stdLibc alloc release) w fmt args).1 = (text.length : Int) ∧
    (vasprintf (stdLibc alloc release) w fmt args).2.strp =
      (allocation (stdLibc alloc release) w fmt args).2 ∧
    (vasprintf (stdLibc alloc release) w fmt args).2.mem
      (vasprintf (stdLibc alloc release) w fmt args).2.strp = text ++ [NUL] := by
  have ht : (trialPass (stdLibc alloc release) w fmt args).result = (text.length : Int) := by
    simp [trialPass, stdLibc, stdFormat_of_render _ _ _ fmt args text hr hlen]
  have hrl : (realPass (stdLibc alloc release) w fmt args).result = (text.length : Int) := by
    simp [realPass, stdLibc, stdFormat_of_render _ _ _ fmt args text hr hlen]
  have h0 : (0 : Int) ≤ (text.length : Int) := Int.natCast_nonneg _
  have htrial : 0 ≤ (trialPass (stdLibc alloc release) w fmt args).result := ht ▸ h0
  have hreal : 0 ≤ (realPass (stdLibc alloc release) w fmt args).result := hrl ▸ h0
  obtain ⟨text', g1, _, _, _, g5⟩ :=
    conforming_passes (stdLibc_conforming alloc release) w fmt args htrial hreal
  have hte : text' = text := by
    rw [hr] at g1
    exact (Option.some.inj g1).symm
  subst hte
  refine ⟨ht, hrl, ?_⟩
  rw [vasprintf_ok _ w fmt args htrial halloc hreal]
  simp only [afterReal, Function.update_same]
  exact ⟨hrl, trivial, g5⟩

/-! ## The claims -/

/-- C2: for every call of `vasprintf`, whatever the formatting primitive and the allocator
do and whatever `*strp` held before, either the value returned is non-negative and `*strp`
is non-null, or the value returned is negative and `*strp` is null; so `*strp` is non-null
exactly when the value returned is non-negative. -/
theorem vasprintf_all_or_nothing (L : Libc σ) (w : World σ) (fmt : List Char) (args : VaList) :
    ((0 ≤ (vasprintf L w fmt args).1 ∧ (vasprintf L w fmt args).2.strp ≠ NULL) ∨
      ((vasprintf L w fmt args).1 < 0 ∧ (vasprintf L w fmt args).2.strp = NULL)) ∧
    ((vasprintf L w fmt args).2.strp ≠ NULL ↔ 0 ≤ (vasprintf L w fmt args).1) := by
  rcases lt_or_le (trialPass L w fmt args).result 0 with h | h
  · simp [vasprintf_trial_neg L w fmt args h, afterTrial]
  · by_cases ha : (allocation L w fmt args).2 = NULL
    · simp [vasprintf_alloc_null L w fmt args h ha, afterTrial]
    · rcases lt_or_le (realPass L w fmt args).result 0 with hr | hr
      · simp [vasprintf_real_neg L w fmt args h ha hr, afterReal]
      · simp [vasprintf_ok L w fmt args h ha hr, afterReal, ha, hr]

/-- C3: `vasprintf` returns a negative value exactly when the trial (zero-capacity) format
reports a negative length, or the allocation of the buffer fails, or the real format into
the allocated buffer reports a negative result; the same in terms of the library calls
actually made (some `vsnprintf` call reported a negative value or some `malloc` call
returned null); and whenever a `malloc` call of the function returned null the result is
negative and `*strp` is null. -/
theorem vasprintf_negative_iff (L : Libc σ) (w : World σ) (fmt : List Char) (args : VaList) :
    ((vasprintf L w fmt args).1 < 0 ↔
      ((trialPass L w fmt args).result < 0 ∨
        (0 ≤ (trialPass L w fmt args).result ∧ (allocation L w fmt args).2 = NULL) ∨
        (0 ≤ (trialPass L w fmt args).result ∧ (allocation L w fmt args).2 ≠ NULL ∧
          (realPass L w fmt args).result < 0))) ∧
    ((vasprintf L w fmt args).1 < 0 ↔
      ((∃ buf cap r, Call.vsnprintf buf cap r ∈ newCalls L w fmt args ∧ r < 0) ∨
        (∃ n, Call.malloc n NULL ∈ newCalls L w fmt args))) ∧
    (∀ n, Call.malloc n NULL ∈ newCalls L w fmt args →
      (vasprintf L w fmt args).1 < 0 ∧ (vasprintf L w fmt args).2.strp = NULL) := by
  rcases lt_or_le (trialPass L w fmt args).result 0 with h | h
  · simp [vasprintf_trial_neg L w fmt args h, newCalls_trial_neg L w fmt args h, afterTrial, h]
    exact ⟨NULL, 0, _, ⟨rfl, rfl, rfl⟩, h⟩
  · by_cases ha : (allocation L w fmt args).2 = NULL
    · simp [vasprintf_alloc_null L w fmt args h ha, newCalls_alloc_null L w fmt args h ha,
        afterTrial, h, ha]
    · rcases lt_or_le (realPass L w fmt args).result 0 with hr | hr
      · simp [vasprintf_real_neg L w fmt args h ha hr, newCalls_real_neg L w fmt args h ha hr,
          afterReal, h, ha, hr]
        exact Or.inl ⟨_, _, _, Or.inr ⟨rfl, rfl, rfl⟩, hr⟩
      · have ha' : ¬ NULL = (allocation L w fmt args).2 := fun e => ha e.symm
        simp [vasprintf_ok L w fmt args h ha hr, newCalls_ok L w fmt args h ha hr,
          afterReal, h, ha, ha', hr, not_lt.mpr h, not_lt.mpr hr]
        rintro buf cap r (⟨_, _, rfl⟩ | ⟨_, _, rfl⟩)
        · exact h
        · exact hr

/-- C5: whenever the trial (zero-capacity) format call reports a negative length,
`vasprintf` returns a negative result, `*strp` is null, and the only library calls made are
`va_copy`, the trial `vsnprintf` and `va_end`: no `malloc`, no second `vsnprintf`, no
`free`; the heap is as before. -/
theorem vasprintf_trial_failure (L : Libc σ) (w : World σ) (fmt : List Char) (args : VaList)
    (h : (trialPass L w fmt args).result < 0) :
    (vasprintf L w fmt args).1 < 0 ∧
    (vasprintf L w fmt args).2.strp = NULL ∧
    newCalls L w fmt args =
      [Call.va_copy, Call.vsnprintf NULL 0 (trialPass L w fmt args).result, Call.va_end] ∧
    (∀ n p, Call.malloc n p ∉ newCalls L w fmt args) ∧
    (∀ buf cap r, Call.vsnprintf buf cap r ∈ newCalls L w fmt args → buf = NULL ∧ cap = 0) ∧
    (vasprintf L w fmt args).2.live = w.live := by
  rw [newCalls_trial_neg L w fmt args h, vasprintf_trial_neg L w fmt args h]
  simp [afterTrial]
  intro buf cap r hb hc _
  exact ⟨hb, hc⟩

/-- C6: with the heap an explicit set of live blocks and a `malloc` that returns null or
a block that is not live: on every failure path the set of live blocks after the call is the
set before it, `free` being called exactly once, on the buffer, when the real format call
fails, and never otherwise; on success the set grows by exactly one block, the one stored in
`*strp`, which was not live before.  On every path the copied argument cursor is ended. -/
theorem vasprintf_heap_effect (L : Libc σ) (hfresh : FreshAlloc L) (w : World σ)
    (fmt : List Char) (args : VaList) :
    ((vasprintf L w fmt args).1 < 0 → (vasprintf L w fmt args).2.live = w.live) ∧
    (0 ≤ (vasprintf L w fmt args).1 →
      (vasprintf L w fmt args).2.strp ∉ w.live ∧
      (vasprintf L w fmt args).2.live = insert (vasprintf L w fmt args).2.strp w.live ∧
      (vasprintf L w fmt args).2.live.card = w.live.card + 1) ∧
    frees (newCalls L w fmt args) =
      (if 0 ≤ (trialPass L w fmt args).result ∧ (allocation L w fmt args).2 ≠ NULL ∧
          (realPass L w fmt args).result < 0
        then [(allocation L w fmt args).2] else []) ∧
    (vasprintf L w fmt args).2.cursors = w.cursors := by
  have hf := hfresh (trialPass L w fmt args).lib w.live (requestSize L w fmt args)
  rcases lt_or_le (trialPass L w fmt args).result 0 with h | h
  · simp [vasprintf_trial_neg L w fmt args h, newCalls_trial_neg L w fmt args h, afterTrial,
      frees, not_le.mpr h]
  · by_cases ha : (allocation L w fmt args).2 = NULL
    · simp [vasprintf_alloc_null L w fmt args h ha, newCalls_alloc_null L w fmt args h ha,
        afterTrial, frees, ha]
    · have hnot : (allocation L w fmt args).2 ∉ w.live := by
        rcases hf with hf | hf
        · exact absurd hf ha
        · exact hf
      rcases lt_or_le (realPass L w fmt args).result 0 with hr | hr
      · simp [vasprintf_real_neg L w fmt args h ha hr, newCalls_real_neg L w fmt args h ha hr,
          afterReal, frees, h, ha, hr, Finset.erase_insert hnot]
      · simp [vasprintf_ok L w fmt args h ha hr, newCalls_ok L w fmt args h ha hr,
          afterReal, frees, hr, not_lt.mpr hr, hnot, Finset.card_insert_of_not_mem hnot]

/-- C1: for a `vsnprintf` that keeps its contract, whenever the trial pass and the real pass
both report a non-negative value and the allocation succeeds, `vasprintf` returns a
non-negative value, the length of the formatted text, and the buffer stored in `*strp`
holds the formatted text followed by one terminator (so the value returned is the number of
bytes before the terminator, and the `strlen` of the buffer when the text has no null
byte); that content is what any successful direct `vsnprintf` call with capacity
trial length + 1 on the same template and arguments stores. -/
theorem vasprintf_success_contract (rnd : List Char → VaList → Option (List Char))
    (L : Libc σ) (hL : Conforming rnd L) (w : World σ) (fmt : List Char) (args : VaList)
    (htrial : 0 ≤ (trialPass L w fmt args).result)
    (halloc : (allocation L w fmt args).2 ≠ NULL)
    (hreal : 0 ≤ (realPass L w fmt args).result) :
    ∃ text, rnd fmt args = some text ∧
      0 ≤ (vasprintf L w fmt args).1 ∧
      (vasprintf L w fmt args).1 = (text.length : Int) ∧
      (vasprintf L w fmt args).2.strp ≠ NULL ∧
      (vasprintf L w fmt args).2.mem (vasprintf L w fmt args).2.strp = text ++ [NUL] ∧
      (NUL ∉ text →
        (strlen ((vasprintf L w fmt args).2.mem (vasprintf L w fmt args).2.strp) : Int) =
          (vasprintf L w fmt args).1) ∧
      (∀ s buf,
        0 ≤ (L.format s buf ((trialPass L w fmt args).result + 1).toNat fmt args).result →
        (L.format s buf ((trialPass L w fmt args).result + 1).toNat fmt args).written =
          (vasprintf L w fmt args).2.mem (vasprintf L w fmt args).2.strp) := by
  obtain ⟨text, h1, h2, h3, h4, h5⟩ := conforming_passes hL w fmt args htrial hreal
  refine ⟨text, h1, ?_⟩
  rw [vasprintf_ok L w fmt args htrial halloc hreal]
  simp only [afterReal, Function.update_same]
  refine ⟨hreal, h3, halloc, h5, ?_, ?_⟩
  · intro hnul
    rw [h5, h3, strlen_terminated text hnul]
  · intro s buf hd
    obtain ⟨text', g1, _, _, g4⟩ := hL _ _ _ _ _ hd
    have ht : text' = text := by
      rw [h1] at g1
      exact (Option.some.inj g1).symm
    subst ht
    rw [g4, h5]
    apply bounded_of_lt
    rw [h2]
    omega

/-- C4: for a `vsnprintf` that keeps its contract, on every successful call of `vasprintf`
the value returned equals the length reported by the trial (zero-capacity) pass. -/
theorem vasprintf_returns_trial_length (rnd : List Char → VaList → Option (List Char))
    (L : Libc σ) (hL : Conforming rnd L) (w : World σ) (fmt : List Char) (args : VaList)
    (hok : 0 ≤ (vasprintf L w fmt args).1) :
    (vasprintf L w fmt args).1 = (trialPass L w fmt args).result := by
  rcases lt_or_le (trialPass L w fmt args).result 0 with h | h
  · rw [vasprintf_trial_neg L w fmt args h] at hok
    simp at hok
  · by_cases ha : (allocation L w fmt args).2 = NULL
    · rw [vasprintf_alloc_null L w fmt args h ha] at hok
      simp at hok
    · rcases lt_or_le (realPass L w fmt args).result 0 with hr | hr
      · rw [vasprintf_real_neg L w fmt args h ha hr] at hok
        simp at hok
      · obtain ⟨text, _, h2, h3, _, _⟩ := conforming_passes hL w fmt args h hr
        rw [vasprintf_ok L w fmt args h ha hr, h2, h3]

/-- C7: for a `vsnprintf` that keeps its contract, two successful calls of `vasprintf` with
the same template and argument values, started in any two worlds, return the same length
and leave buffers with the same content: both are determined by the template and the
argument values alone. -/
theorem vasprintf_deterministic (rnd : List Char → VaList → Option (List Char))
    (L : Libc σ) (hL : Conforming rnd L) (w₁ w₂ : World σ) (fmt : List Char) (args : VaList)
    (hok₁ : 0 ≤ (vasprintf L w₁ fmt args).1) (hok₂ : 0 ≤ (vasprintf L w₂ fmt args).1) :
    (vasprintf L w₁ fmt args).1 = (vasprintf L w₂ fmt args).1 ∧
    (vasprintf L w₁ fmt args).2.mem (vasprintf L w₁ fmt args).2.strp =
      (vasprintf L w₂ fmt args).2.mem (vasprintf L w₂ fmt args).2.strp := by
  have key : ∀ w : World σ, 0 ≤ (vasprintf L w fmt args).1 →
      ∃ text, rnd fmt args = some text ∧ (vasprintf L w fmt args).1 = (text.length : Int) ∧
        (vasprintf L w fmt args).2.mem (vasprintf L w fmt args).2.strp = text ++ [NUL] := by
    intro w hok
    rcases lt_or_le (trialPass L w fmt args).result 0 with h | h
    · rw [vasprintf_trial_neg L w fmt args h] at hok
      simp at hok
    · by_cases ha : (allocation L w fmt args).2 = NULL
      · rw [vasprintf_alloc_null L w fmt args h ha] at hok
        simp at hok
      · rcases lt_or_le (realPass L w fmt args).result 0 with hr | hr
        · rw [vasprintf_real_neg L w fmt args h ha hr] at hok
          simp at hok
        · obtain ⟨text, h1, _, h3, _, h5⟩ := conforming_passes hL w fmt args h hr
          refine ⟨text, h1, ?_⟩
          rw [vasprintf_ok L w fmt args h ha hr]
          simp only [afterReal, Function.update_same]
          exact ⟨h3, h5⟩
  obtain ⟨t₁, a₁, b₁, c₁⟩ := key w₁ hok₁
  obtain ⟨t₂, a₂, b₂, c₂⟩ := key w₂ hok₂
  have ht : t₁ = t₂ := by
    rw [a₁] at a₂
    exact Option.some.inj a₂
  subst ht
  exact ⟨b₁.trans b₂.symm, c₁.trans c₂.symm⟩

/-- C10: with `length` a 32-bit `int` holding a non-negative trial length `n`:
when `n < 2^31 - 1` the sum `length + 1` does not wrap, and the size passed to `malloc`
and the capacity passed to the real `vsnprintf` call are both exactly `n + 1`, at least 1;
for every `n` the two calls receive the same value; and `length + 1` wraps only at
`n = 2^31 - 1`, where it is `-2^31`. -/
theorem vasprintf_request_size (L : Libc σ) (w : World σ) (fmt : List Char) (args : VaList)
    (n : Int) (hn : (trialPass L w fmt args).result = n) (h0 : 0 ≤ n) (hmax : n ≤ INT_MAX) :
    (n < INT_MAX →
      addInt n 1 = n + 1 ∧
      (∃ p, Call.malloc (n.toNat + 1) p ∈ newCalls L w fmt args) ∧
      (∀ size p, Call.malloc size p ∈ newCalls L w fmt args → size = n.toNat + 1 ∧ 1 ≤ size) ∧
      (∀ buf cap r, Call.vsnprintf buf cap r ∈ newCalls L w fmt args → buf ≠ NULL →
        cap = n.toNat + 1 ∧ 1 ≤ cap) ∧
      ((allocation L w fmt args).2 ≠ NULL →
        Call.vsnprintf (allocation L w fmt args).2 (n.toNat + 1)
          (realPass L w fmt args).result ∈ newCalls L w fmt args)) ∧
    (∀ size p buf cap r, Call.malloc size p ∈ newCalls L w fmt args →
      Call.vsnprintf buf cap r ∈ newCalls L w fmt args → buf ≠ NULL → cap = size) ∧
    (addInt n 1 ≠ n + 1 ↔ n = INT_MAX) ∧
    (n = INT_MAX → addInt n 1 = INT_MIN) := by
  have h : 0 ≤ (trialPass L w fmt args).result := by rw [hn]; exact h0
  have hwrap : (addInt n 1 ≠ n + 1 ↔ n = INT_MAX) ∧ (n = INT_MAX → addInt n 1 = INT_MIN) := by
    unfold addInt wrapInt INT_MIN
    unfold INT_MAX at hmax ⊢
    omega
  have hsize : n < INT_MAX → requestSize L w fmt args = n.toNat + 1 := by
    intro hlt
    unfold requestSize
    rw [hn]
    exact toSizeT_addInt_of_lt n h0 hlt
  refine ⟨?_, ?_, hwrap⟩
  · intro hlt
    have hs := hsize hlt
    refine ⟨addInt_one_of_lt n h0 hlt, ⟨_, hs ▸ malloc_called L w fmt args h⟩, ?_, ?_, ?_⟩
    · intro size p hm
      have := (malloc_mem_newCalls L w fmt args size p hm).1
      omega
    · intro buf cap r hm hb
      rcases vsnprintf_mem_newCalls L w fmt args buf cap r hm with ⟨e, _, _⟩ | ⟨_, _, e, _, _⟩
      · exact absurd e hb
      · omega
    · intro ha
      exact hs ▸ real_called L w fmt args h ha
  · intro size p buf cap r hm hv hb
    have := (malloc_mem_newCalls L w fmt args size p hm).1
    rcases vsnprintf_mem_newCalls L w fmt args buf cap r hv with ⟨e, _, _⟩ | ⟨_, _, e, _, _⟩
    · exact absurd e hb
    · omega

/-- C8, amended: over the reference `vsnprintf`, for every template in which every `%`
belongs to a `%%` pair (it consumes no argument) and whose text is at most `INT_MAX`
characters long, called with an empty argument list and a succeeding allocation,
`vasprintf` succeeds, returns the length of the template's text with every `%%` pair read as
one `%`, and the buffer holds that text followed by the terminator; when the template has
no `%` at all this is the template's own length and the template verbatim; the empty
template gives 0 and a buffer holding only the terminator. -/
theorem vasprintf_literal_template (alloc : σ → Finset Nat → Nat → σ × Nat)
    (release : σ → Nat → σ) (w : World σ) (fmt : List Char)
    (hfree : argFree fmt = true) (hlen : ((unescape fmt).length : Int) ≤ INT_MAX)
    (halloc : (allocation (stdLibc alloc release) w fmt []).2 ≠ NULL) :
    0 ≤ (vasprintf (stdLibc alloc release) w fmt []).1 ∧
    (vasprintf (stdLibc alloc release) w fmt []).1 = ((unescape fmt).length : Int) ∧
    (vasprintf (stdLibc alloc release) w fmt []).2.strp ≠ NULL ∧
    (vasprintf (stdLibc alloc release) w fmt []).2.mem
      (vasprintf (stdLibc alloc release) w fmt []).2.strp = unescape fmt ++ [NUL] ∧
    (PERCENT ∉ fmt →
      (vasprintf (stdLibc alloc release) w fmt []).1 = (fmt.length : Int) ∧
      (vasprintf (stdLibc alloc release) w fmt []).2.mem
        (vasprintf (stdLibc alloc release) w fmt []).2.strp = fmt ++ [NUL]) ∧
    (fmt = [] →
      (vasprintf (stdLibc alloc release) w fmt []).1 = 0 ∧
      (vasprintf (stdLibc alloc release) w fmt []).2.mem
        (vasprintf (stdLibc alloc release) w fmt []).2.strp = [NUL]) := by
  obtain ⟨_, _, h3, h4, h5⟩ :=
    std_vasprintf alloc release w fmt [] (unescape fmt) (render_argFree fmt [] hfree) hlen halloc
  refine ⟨by rw [h3]; exact Int.natCast_nonneg _, h3, by rw [h4]; exact halloc, h5, ?_, ?_⟩
  · intro hp
    have hu := (argFree_of_no_percent fmt hp).2
    rw [h3, h5, hu]
    exact ⟨rfl, rfl⟩
  · intro he
    subst he
    rw [h3, h5]
    simp [unescape]

/-- C8, the claim as stated fails: the template `%%` consumes no argument, and with an empty
argument list and a succeeding allocation `vasprintf` returns 1, not the template's length 2,
and the buffer holds one `%` and the terminator, not the template verbatim. -/
theorem vasprintf_percent_pair_not_verbatim :
    argFree percentTemplate = true ∧
    render percentTemplate [] = some [PERCENT] ∧
    (allocation arenaLibc (emptyWorld 100) percentTemplate []).2 ≠ NULL ∧
    (vasprintf arenaLibc (emptyWorld 100) percentTemplate []).1 = 1 ∧
    (vasprintf arenaLibc (emptyWorld 100) percentTemplate []).1 ≠
      (percentTemplate.length : Int) ∧
    (vasprintf arenaLibc (emptyWorld 100) percentTemplate []).2.mem
      (vasprintf arenaLibc (emptyWorld 100) percentTemplate []).2.strp = [PERCENT, NUL] ∧
    (vasprintf arenaLibc (emptyWorld 100) percentTemplate []).2.mem
      (vasprintf arenaLibc (emptyWorld 100) percentTemplate []).2.strp ≠
        percentTemplate ++ [NUL] := by
  decide

/-- C9: over the reference `vsnprintf`, for the template `%d-%s` with arguments
`(7, "ok")` and a succeeding allocation, `vasprintf` succeeds, returns 4, and the buffer
stored in `*strp` holds the four characters `7-ok` followed by the terminator; `malloc` is
asked for 5 bytes and the real pass is given capacity 5. -/
theorem vasprintf_example (alloc : σ → Finset Nat → Nat → σ × Nat) (release : σ → Nat → σ)
    (w : World σ)
    (halloc : (allocation (stdLibc alloc release) w exampleTemplate exampleArgs).2 ≠ NULL) :
    (vasprintf (stdLibc alloc release) w exampleTemplate exampleArgs).1 = 4 ∧
    (vasprintf (stdLibc alloc release) w exampleTemplate exampleArgs).2.strp ≠ NULL ∧
    (vasprintf (stdLibc alloc release) w exampleTemplate exampleArgs).2.mem
      (vasprintf (stdLibc alloc release) w exampleTemplate exampleArgs).2.strp =
        "7-ok".toList ++ [NUL] ∧
    Call.malloc 5 (vasprintf (stdLibc alloc release) w exampleTemplate exampleArgs).2.strp ∈
      newCalls (stdLibc alloc release) w exampleTemplate exampleArgs ∧
    Call.vsnprintf (vasprintf (stdLibc alloc release) w exampleTemplate exampleArgs).2.strp 5 4 ∈
      newCalls (stdLibc alloc release) w exampleTemplate exampleArgs := by
  have hr : render exampleTemplate exampleArgs = some "7-ok".toList := by decide
  have hlen : (("7-ok".toList.length : Nat) : Int) ≤ INT_MAX := by decide
  obtain ⟨h1, h2, h3, h4, h5⟩ :=
    std_vasprintf alloc release w exampleTemplate exampleArgs "7-ok".toList hr hlen halloc
  have htrial : 0 ≤ (trialPass (stdLibc alloc release) w exampleTemplate exampleArgs).result := by
    rw [h1]; decide
  have hsize : requestSize (stdLibc alloc release) w exampleTemplate exampleArgs = 5 := by
    unfold requestSize
    rw [h1]
    decide
  have hm := malloc_called (stdLibc alloc release) w exampleTemplate exampleArgs htrial
  have hv := real_called (stdLibc alloc release) w exampleTemplate exampleArgs htrial halloc
  rw [hsize] at hm hv
  rw [h2] at hv
  refine ⟨by rw [h3]; rfl, by rw [h4]; exact halloc, h5, ?_, ?_⟩
  · rw [h4]; exact hm
  · rw [h4]; exact hv

/-- The reference `vsnprintf` rejects a template without conversions that is longer than
`INT_MAX`, so `vasprintf` fails on it, whatever the allocator: the length bound of the
amended C8 is needed. -/
theorem vasprintf_overlong_template_fails (alloc : σ → Finset Nat → Nat → σ × Nat)
    (release : σ → Nat → σ) (w : World σ) :
    PERCENT ∉ overlongTemplate ∧
    (overlongTemplate.length : Int) = INT_MAX + 1 ∧
    (vasprintf (stdLibc alloc release) w overlongTemplate []).1 = -1 := by
  have hp : PERCENT ∉ overlongTemplate := by
    intro h
    have he : PERCENT = Char.ofNat 97 := List.eq_of_mem_replicate h
    revert he
    decide
  have hlen : overlongTemplate.length = 2147483648 := List.length_replicate _ _
  have hfree := argFree_of_no_percent overlongTemplate hp
  have hr : render overlongTemplate [] = some overlongTemplate := by
    have := render_argFree overlongTemplate [] hfree.1
    rw [hfree.2] at this
    exact this
  have hbig : INT_MAX < (overlongTemplate.length : Int) := by
    rw [hlen]
    decide
  have htrial : (trialPass (stdLibc alloc release) w overlongTemplate []).result = -1 :=
    trialPass_of_overlong alloc release w overlongTemplate [] overlongTemplate hr hbig
  refine ⟨hp, ?_, ?_⟩
  · rw [hlen]
    decide
  · rw [vasprintf_trial_neg _ w overlongTemplate [] (by rw [htrial]; decide)]

/-! ## Instances at concrete inputs -/

/-- Instance of C1: `%s:%d` with `("id", -12)` over the arena allocator. -/
theorem vasprintf_success_contract_witness :
    Conforming render arenaLibc ∧
    0 ≤ (trialPass arenaLibc (emptyWorld 100) pairTemplate pairArgs).result ∧
    (allocation arenaLibc (emptyWorld 100) pairTemplate pairArgs).2 ≠ NULL ∧
    0 ≤ (realPass arenaLibc (emptyWorld 100) pairTemplate pairArgs).result ∧
    ∃ text, render pairTemplate pairArgs = some text ∧
      (vasprintf arenaLibc (emptyWorld 100) pairTemplate pairArgs).1 = (text.length : Int) ∧
      (vasprintf arenaLibc (emptyWorld 100) pairTemplate pairArgs).2.mem
        (vasprintf arenaLibc (emptyWorld 100) pairTemplate pairArgs).2.strp = text ++ [NUL] := by
  refine ⟨stdLibc_conforming _ _, by decide, by decide, by decide, ?_⟩
  obtain ⟨text, h1, _, h3, _, h5, _⟩ :=
    vasprintf_success_contract render arenaLibc (stdLibc_conforming _ _) (emptyWorld 100)
      pairTemplate pairArgs (by decide) (by decide) (by decide)
  exact ⟨text, h1, h3, h5⟩

/-- Instance of C4: `%d%%` with `(100)` over the arena allocator. -/
theorem vasprintf_returns_trial_length_witness :
    Conforming render arenaLibc ∧
    0 ≤ (vasprintf arenaLibc (emptyWorld 100) ratioTemplate [Arg.int 100]).1 ∧
    (vasprintf arenaLibc (emptyWorld 100) ratioTemplate [Arg.int 100]).1 =
      (trialPass arenaLibc (emptyWorld 100) ratioTemplate [Arg.int 100]).result :=
  ⟨stdLibc_conforming _ _, by decide,
    vasprintf_returns_trial_length render arenaLibc (stdLibc_conforming _ _) (emptyWorld 100)
      ratioTemplate [Arg.int 100] (by decide)⟩

/-- Instance of C5: `%d` with no argument is rejected by the trial pass. -/
theorem vasprintf_trial_failure_witness :
    (trialPass arenaLibc (emptyWorld 100) decimalTemplate []).result < 0 ∧
    (vasprintf arenaLibc (emptyWorld 100) decimalTemplate []).1 < 0 ∧
    (vasprintf arenaLibc (emptyWorld 100) decimalTemplate []).2.strp = NULL ∧
    newCalls arenaLibc (emptyWorld 100) decimalTemplate [] =
      [Call.va_copy, Call.vsnprintf NULL 0 (-1), Call.va_end] :=
  have h := vasprintf_trial_failure arenaLibc (emptyWorld 100) decimalTemplate [] (by decide)
  ⟨by decide, h.1, h.2.1, h.2.2.1⟩

/-- Instance of C6: the real pass fails and the buffer at address 1 is freed. -/
theorem vasprintf_heap_effect_witness :
    FreshAlloc faultyLibc ∧
    (vasprintf faultyLibc (emptyWorld 100) exampleTemplate exampleArgs).1 < 0 ∧
    (vasprintf faultyLibc (emptyWorld 100) exampleTemplate exampleArgs).2.live =
      (emptyWorld 100).live ∧
    frees (newCalls faultyLibc (emptyWorld 100) exampleTemplate exampleArgs) = [1] :=
  have h := vasprintf_heap_effect faultyLibc faultyLibc_fresh (emptyWorld 100) exampleTemplate
    exampleArgs
  ⟨faultyLibc_fresh, by decide, h.1 (by decide), h.2.2.1.trans (by decide)⟩

/-- Instance of C7: a call and a second call in the world the first one left, which gets
a different buffer. -/
theorem vasprintf_deterministic_witness :
    Conforming render arenaLibc ∧
    0 ≤ (vasprintf arenaLibc (emptyWorld 100) pairTemplate pairArgs).1 ∧
    0 ≤ (vasprintf arenaLibc (vasprintf arenaLibc (emptyWorld 100) pairTemplate pairArgs).2
      pairTemplate pairArgs).1 ∧
    (vasprintf arenaLibc (emptyWorld 100) pairTemplate pairArgs).2.strp ≠
      (vasprintf arenaLibc (vasprintf arenaLibc (emptyWorld 100) pairTemplate pairArgs).2
        pairTemplate pairArgs).2.strp ∧
    (vasprintf arenaLibc (emptyWorld 100) pairTemplate pairArgs).1 =
      (vasprintf arenaLibc (vasprintf arenaLibc (emptyWorld 100) pairTemplate pairArgs).2
        pairTemplate pairArgs).1 ∧
    (vasprintf arenaLibc (emptyWorld 100) pairTemplate pairArgs).2.mem
        (vasprintf arenaLibc (emptyWorld 100) pairTemplate pairArgs).2.strp =
      (vasprintf arenaLibc (vasprintf arenaLibc (emptyWorld 100) pairTemplate pairArgs).2
        pairTemplate pairArgs).2.mem
        (vasprintf arenaLibc (vasprintf arenaLibc (emptyWorld 100) pairTemplate pairArgs).2
          pairTemplate pairArgs).2.strp :=
  ⟨stdLibc_conforming _ _, by decide, by decide, by decide,
    vasprintf_deterministic render arenaLibc (stdLibc_conforming _ _) (emptyWorld 100)
      (vasprintf arenaLibc (emptyWorld 100) pairTemplate pairArgs).2 pairTemplate pairArgs
      (by decide) (by decide)⟩

/-- Instance of the amended C8: `a%%b` gives the three characters `a%b`. -/
theorem vasprintf_literal_template_witness :
    argFree escapedTemplate = true ∧
    ((unescape escapedTemplate).length : Int) ≤ INT_MAX ∧
    (allocation arenaLibc (emptyWorld 10) escapedTemplate []).2 ≠ NULL ∧
    (vasprintf arenaLibc (emptyWorld 10) escapedTemplate []).1 = 3 ∧
    (vasprintf arenaLibc (emptyWorld 10) escapedTemplate []).2.mem
      (vasprintf arenaLibc (emptyWorld 10) escapedTemplate []).2.strp = "a%b".toList ++ [NUL] :=
  have h := vasprintf_literal_template arenaAlloc arenaRelease (emptyWorld 10) escapedTemplate
    (by decide) (by decide) (by decide)
  ⟨by decide, by decide, by decide, h.2.1.trans (by decide), h.2.2.2.1.trans (by decide)⟩

/-- Instance of C9 over the arena allocator with exactly 5 bytes left. -/
theorem vasprintf_example_witness :
    (allocation arenaLibc (emptyWorld 5) exampleTemplate exampleArgs).2 ≠ NULL ∧
    (vasprintf arenaLibc (emptyWorld 5) exampleTemplate exampleArgs).1 = 4 ∧
    (vasprintf arenaLibc (emptyWorld 5) exampleTemplate exampleArgs).2.mem
      (vasprintf arenaLibc (emptyWorld 5) exampleTemplate exampleArgs).2.strp =
        "7-ok".toList ++ [NUL] :=
  have h := vasprintf_example arenaAlloc arenaRelease (emptyWorld 5) (by decide)
  ⟨by decide, h.1, h.2.2.1⟩

/-- Instance of C10: trial length 4, `malloc(5)`. -/
theorem vasprintf_request_size_witness :
    (trialPass arenaLibc (emptyWorld 100) exampleTemplate exampleArgs).result = 4 ∧
    (0 : Int) ≤ 4 ∧ (4 : Int) ≤ INT_MAX ∧ (4 : Int) < INT_MAX ∧
    addInt 4 1 = 4 + 1 ∧
    (∃ p, Call.malloc 5 p ∈ newCalls arenaLibc (emptyWorld 100) exampleTemplate exampleArgs) :=
  have h := vasprintf_request_size arenaLibc (emptyWorld 100) exampleTemplate exampleArgs 4
    (by decide) (by decide) (by decide)
  ⟨by decide, by decide, by decide, by decide, (h.1 (by decide)).1, (h.1 (by decide)).2.1⟩

end Vasprintf
